import Mathlib

/-!
Verification of the ruspty PTY + ptrace-sandbox library against its
natural-language specification.

The definitions below are a shallow embedding of `src/lib.rs` and
`src/sandbox.rs`:

* The child-environment construction performed by `Pty::new` (Rust
  `Command::envs` without `env_clear`) is embedded as `child_env` over
  association lists.
* The `Pty` handle and its `fd` / `resize` / `close` methods are embedded
  as explicit state passing over a record of `Option` file descriptors;
  OS calls (`fcntl F_DUPFD_CLOEXEC`, `ioctl TIOCSWINSZ`) are oracles
  passed in as parameters, since only their success/failure and the
  handle state matter to the spec claims.
* The sandbox decoder (`read_path`, `get_syscall_targets`), the policy
  check (`handle_syscall`) and the tracer supervision loop (`run_parent`
  and the `install_sandbox` exit mapping) are embedded over an explicit
  tracee environment (registers, word-addressed memory, cwd and fd
  table) and an explicit list of wait events.
* The per-child reaper thread of `Pty::new` is embedded as a function
  producing the ordered list of its observable actions.

Machine integers are `Nat` with explicit wrap/truncation where the source
relies on it; fallible code returns `Except`.
-/

namespace Ruspty

/-! ## Child environment (lib.rs, `Pty::new`, lines 177-179)

Rust's `Command` starts from the inherited (ambient) environment; the
source calls `cmd.envs(envs)` when `opts.envs` is provided and never calls
`env_clear`, so the provided variables are inserted into — not substituted
for — the ambient environment.  Environments are modelled as association
lists looked up by first match, which is how we observe the spawned
child's environment. -/

/-- Lookup of a variable in an environment (first match). -/
def env_lookup (env : List (String × String)) (k : String) : Option String :=
  match env with
  | [] => none
  | (k', v) :: rest => if k' = k then some v else env_lookup rest k

/-- Insertion semantics of Rust `Command::envs` for a single variable:
overwrite the variable if present, otherwise append it. -/
def env_insert (env : List (String × String)) (k v : String) : List (String × String) :=
  match env with
  | [] => [(k, v)]
  | (k', v') :: rest => if k' = k then (k', v) :: rest else (k', v') :: env_insert rest k v

/-- The environment the spawned child sees (lib.rs lines 177-179):
the ambient environment, updated by the provided `envs` when present.
`Command::env_clear` is never called in the source. -/
def child_env (ambient : List (String × String)) (envs : Option (List (String × String))) :
    List (String × String) :=
  match envs with
  | none => ambient
  | some es => es.foldl (fun acc p => env_insert acc p.1 p.2) ambient

/-- Last-match lookup in a list of provided variables (later duplicates of
a key override earlier ones, as repeated `insert`s into a map would). -/
def assoc_last (es : List (String × String)) (k : String) : Option String :=
  match es with
  | [] => none
  | (k', v) :: rest =>
    match assoc_last rest k with
    | some w => some w
    | none => if k' = k then some v else none

/-- Option fallback helper: the first value if present, else the second. -/
def orD (a b : Option String) : Option String :=
  match a with
  | some v => some v
  | none => b

theorem env_lookup_insert (env : List (String × String)) (k v q : String) :
    env_lookup (env_insert env k v) q = if k = q then some v else env_lookup env q := by
  induction env with
  | nil =>
    by_cases h : k = q <;> simp [env_insert, env_lookup, h]
  | cons p rest ih =>
    obtain ⟨k', v'⟩ := p
    by_cases hk : k' = k
    · subst hk
      by_cases hq : k' = q
      · subst hq
        simp [env_insert, env_lookup]
      · simp [env_insert, env_lookup, hq]
    · by_cases hq : k' = q
      · subst hq
        have hkq : ¬ k = k' := fun h => hk h.symm
        simp [env_insert, env_lookup, hk, hkq]
      · simp [env_insert, env_lookup, hk, hq, ih]

theorem env_lookup_foldl_insert (es : List (String × String))
    (env : List (String × String)) (k : String) :
    env_lookup (es.foldl (fun acc p => env_insert acc p.1 p.2) env) k =
      orD (assoc_last es k) (env_lookup env k) := by
  induction es generalizing env with
  | nil => simp [assoc_last, orD]
  | cons p rest ih =>
    obtain ⟨k0, v0⟩ := p
    have step : (((k0, v0) :: rest).foldl (fun acc p => env_insert acc p.1 p.2) env)
        = rest.foldl (fun acc p => env_insert acc p.1 p.2) (env_insert env k0 v0) := rfl
    rw [step, ih]
    cases h : assoc_last rest k with
    | some w => simp [assoc_last, h, orD]
    | none =>
      by_cases hk : k0 = k
      · simp [assoc_last, h, orD, hk, env_lookup_insert]
      · simp [assoc_last, h, orD, hk, env_lookup_insert]

/-- C1, counterexample.  With ambient variable `FOO=bar` and provided
`envs = {BAZ: qux}`, the child's environment still contains the inherited
`FOO` (so it is not equal to the provided mapping), and with `envs`
absent the child's environment is the full ambient environment, not the
empty one. -/
theorem c1_cx :
    env_lookup (child_env [("FOO", "bar")] (some [("BAZ", "qux")])) "FOO" = some "bar" ∧
    child_env [("FOO", "bar")] none = [("FOO", "bar")] := by
  constructor
  · rfl
  · rfl

/-- C1, amended.  The environment of the spawned child is the ambient
host environment updated by the provided `envs` mapping (provided
variables override ambient ones, all other ambient variables are
inherited); when `envs` is absent the child's environment is exactly the
ambient environment, not the empty one. -/
theorem c1_thm (ambient es : List (String × String)) (k : String) :
    child_env ambient none = ambient ∧
    env_lookup (child_env ambient (some es)) k =
      orD (assoc_last es k) (env_lookup ambient k) := by
  refine ⟨rfl, ?_⟩
  simpa [child_env] using env_lookup_foldl_insert es ambient k

/-! ## The Pty handle (lib.rs, `Pty::fd` lines 411-430, `Pty::resize` lines
376-401, `Pty::close` lines 440-452)

The handle owns optional controller and user file descriptors.  `fd()`
returns the controller fd (or a fresh `F_DUPFD_CLOEXEC` duplicate under
node) and leaves the handle unchanged; `resize` issues the window ioctl
on the current controller fd; only `close()` takes the descriptors out of
the handle.  The outcomes of the two OS calls involved are supplied as
oracle parameters (`dup_res` is the return of `fcntl F_DUPFD_CLOEXEC`,
`none` standing for a negative return; `ioctl_ok` is whether
`ioctl TIOCSWINSZ` returned 0). -/

/-- State of a `Pty` handle: the optional owned controller/user fds and
the `should_dup_fds` flag captured at construction. -/
structure Pty where
  controller_fd : Option Int
  user_fd : Option Int
  should_dup_fds : Bool
  deriving DecidableEq

/-- Embedding of `Pty::fd` (lib.rs lines 411-430).  Returns the raw
controller fd directly when `should_dup_fds` is false, else the result of
`fcntl(fd, F_DUPFD_CLOEXEC, 3)`; the handle state is returned unchanged.
Fails with the bad-descriptor error when the handle no longer owns a
controller fd. -/
def Pty.fd (p : Pty) (dup_res : Option Int) : Except String (Int × Pty) :=
  match p.controller_fd with
  | some fd =>
    if !p.should_dup_fds then .ok (fd, p)
    else
      match dup_res with
      | some res => .ok (res, p)
      | none => .error "fcntl F_DUPFD_CLOEXEC failed"
  | none => .error "fcntl F_DUPFD_CLOEXEC failed: bad file descriptor (os error 9)"

/-- Embedding of `Pty::resize` (lib.rs lines 376-401).  Issues
`ioctl TIOCSWINSZ` on the controller fd when the handle still owns one,
else fails with the bad-descriptor error. -/
def Pty.resize (p : Pty) (ioctl_ok : Bool) : Except String Pty :=
  match p.controller_fd with
  | some _ =>
    if ioctl_ok then .ok p else .error "ioctl TIOCSWINSZ failed"
  | none => .error "ioctl TIOCSWINSZ failed: bad file descriptor (os error 9)"

/-- Embedding of `Pty::close` (lib.rs lines 440-452).  Both fds are taken
out of the handle unconditionally; the call reports an error when the
controller fd was already gone. -/
def Pty.close (p : Pty) : Except String Unit × Pty :=
  ((if p.controller_fd.isNone then .error "close failed: 9" else .ok ()),
   { p with controller_fd := none, user_fd := none })

/-- C2, counterexample.  On a freshly constructed handle (controller fd
owned), `fd()` succeeds and returns the handle unchanged — so an
immediately repeated `fd()` on the resulting handle succeeds again, and
`resize` on it also still succeeds, contradicting the claim that after
one successful transfer every subsequent descriptor-using operation
fails with a bad-descriptor error. -/
theorem c2_cx :
    Pty.fd ⟨some 5, some 6, false⟩ (some 7) = .ok (5, ⟨some 5, some 6, false⟩) ∧
    Pty.fd ⟨some 5, some 6, false⟩ (some 7) = .ok (5, ⟨some 5, some 6, false⟩) ∧
    Pty.resize ⟨some 5, some 6, false⟩ true = .ok ⟨some 5, some 6, false⟩ := by
  refine ⟨rfl, rfl, rfl⟩

/-- C2, amended.  `fd()` is not one-shot: it succeeds (and leaves the
handle unchanged, still owning the controller fd) every time it is called
while the handle owns the controller fd, and `resize` keeps succeeding as
well.  Descriptor-using operations fail with a bad-descriptor error
exactly when the handle no longer owns the controller fd, which happens
only after `close()`, which removes both fds from the handle. -/
theorem c2_thm (p : Pty) (d : Option Int) (fd0 : Int) :
    (p.controller_fd = some fd0 → p.should_dup_fds = false →
      Pty.fd p d = .ok (fd0, p) ∧ Pty.resize p true = .ok p) ∧
    (p.controller_fd = none →
      Pty.fd p d = .error "fcntl F_DUPFD_CLOEXEC failed: bad file descriptor (os error 9)" ∧
      Pty.resize p true = .error "ioctl TIOCSWINSZ failed: bad file descriptor (os error 9)") ∧
    (Pty.close p).2.controller_fd = none ∧
    Pty.fd (Pty.close p).2 d =
      .error "fcntl F_DUPFD_CLOEXEC failed: bad file descriptor (os error 9)" ∧
    Pty.resize (Pty.close p).2 true =
      .error "ioctl TIOCSWINSZ failed: bad file descriptor (os error 9)" := by
  refine ⟨?_, ?_, rfl, rfl, rfl⟩
  · intro hc hd
    constructor
    · simp [Pty.fd, hc, hd]
    · simp [Pty.resize, hc]
  · intro hc
    constructor
    · simp [Pty.fd, hc]
    · simp [Pty.resize, hc]

/-- C2, witness for `c2_thm` at a concrete handle. -/
theorem c2_thm_witness :
    (Pty.fd ⟨some 5, some 6, false⟩ none = .ok (5, ⟨some 5, some 6, false⟩) ∧
      Pty.resize ⟨some 5, some 6, false⟩ true = .ok ⟨some 5, some 6, false⟩) ∧
    (Pty.close ⟨some 5, some 6, false⟩).2.controller_fd = none :=
  ⟨(c2_thm ⟨some 5, some 6, false⟩ none 5).1 rfl rfl,
   (c2_thm ⟨some 5, some 6, false⟩ none 5).2.2.1⟩

/-! ## Sandbox data model (sandbox.rs)

Paths handled by the tracer are OS paths: byte strings that may or may
not be valid UTF-8.  `PathBuf` is embedded as `OsPath`: either a valid
UTF-8 path carrying its string, or a non-UTF-8 path carrying its raw
bytes.  `Path::to_str` becomes `OsPath.to_str`, `PathBuf::push` /
`Path::join` become `OsPath.push`. -/

/-- The forbidden operation of a rule (sandbox.rs lines 626-630). -/
inductive Operation where
  | Modify
  | Delete
  deriving DecidableEq, BEq

/-- An OS path: the bytes of a `PathBuf`, tagged by whether they are
valid UTF-8 (in which case the decoded string is carried directly). -/
inductive OsPath where
  | utf8 (s : String)
  | nonUtf8 (bytes : List UInt8)
  deriving DecidableEq

/-- Embedding of `Path::to_str` (used in handle_syscall, sandbox.rs line
367): the string form of the path when it is valid UTF-8. -/
def OsPath.to_str : OsPath → Option String
  | .utf8 s => some s
  | .nonUtf8 _ => none

/-- Rust `str::starts_with` on strings.  Rust compares the UTF-8 bytes;
because UTF-8 decoding is a left-to-right prefix code, a byte-level
prefix of valid UTF-8 is exactly a character-level prefix, so the check
is performed on the character lists. -/
def strStartsWith (s pat : String) : Bool :=
  pat.data.isPrefixOf s.data

/-- Rust `str::ends_with` / `Path` trailing-separator check, at the
character level. -/
def strEndsWith (s pat : String) : Bool :=
  pat.data.isSuffixOf s.data

/-- UTF-8 encoding of one character (standard 1-4 byte encoding). -/
def utf8EncodeChar (c : Char) : List UInt8 :=
  let n := c.toNat
  if n < 0x80 then [UInt8.ofNat n]
  else if n < 0x800 then
    [UInt8.ofNat (0xC0 + n / 0x40), UInt8.ofNat (0x80 + n % 0x40)]
  else if n < 0x10000 then
    [UInt8.ofNat (0xE0 + n / 0x1000), UInt8.ofNat (0x80 + n / 0x40 % 0x40),
     UInt8.ofNat (0x80 + n % 0x40)]
  else
    [UInt8.ofNat (0xF0 + n / 0x40000), UInt8.ofNat (0x80 + n / 0x1000 % 0x40),
     UInt8.ofNat (0x80 + n / 0x40 % 0x40), UInt8.ofNat (0x80 + n % 0x40)]

/-- UTF-8 encoding of a string as its byte sequence. -/
def utf8Encode (s : String) : List UInt8 :=
  s.data.foldr (fun c acc => utf8EncodeChar c ++ acc) []

/-- Joining a relative string onto a UTF-8 path with a separator, as
`PathBuf::push` does for relative components. -/
def pushStr (b rel : String) : String :=
  if strEndsWith b "/" then b ++ rel else b ++ "/" ++ rel

/-- Embedding of `PathBuf::push` / `Path::join` with a string component
(as produced by `read_path`): an absolute component replaces the path,
a relative one is appended after a separator.  Appending ASCII bytes
(`/` and a decoded UTF-8 string) to a non-UTF-8 byte string cannot make
it valid UTF-8, so the result stays tagged `nonUtf8`. -/
def OsPath.push (base : OsPath) (rel : String) : OsPath :=
  if strStartsWith rel "/" then .utf8 rel
  else
    match base with
    | .utf8 b => .utf8 (pushStr b rel)
    | .nonUtf8 bs => .nonUtf8 (bs ++ (0x2F : UInt8) :: utf8Encode rel)

/-- Embedding of `Path::display` as used by `SandboxError`'s `Display`
impl.  Every `SandboxError` carries a path whose `to_str` succeeded, so
only the UTF-8 branch is reachable there; the lossy branch substitutes
the Unicode replacement character per raw byte. -/
def OsPath.display : OsPath → String
  | .utf8 s => s
  | .nonUtf8 bs => String.mk (bs.map (fun _ => Char.ofNat 0xFFFD))

/-- A sandboxing rule (sandbox.rs lines 634-644). -/
structure Rule where
  operation : Operation
  prefixes : List String
  exclude_prefixes : Option (List String)
  message : String
  deriving DecidableEq

/-- Sandbox options (sandbox.rs lines 647-650). -/
structure Options where
  rules : List Rule
  deriving DecidableEq

/-- A decoded syscall target (sandbox.rs lines 81-85).  `sysno` is the
syscall's name. -/
structure SyscallTarget where
  operation : Operation
  sysno : String
  path : OsPath
  deriving DecidableEq

/-- The error carried out of `handle_syscall` on a rule violation
(sandbox.rs lines 345-350); displayed as `"<message>: <path>"`. -/
structure SandboxError where
  sysno : String
  message : String
  path : OsPath
  deriving DecidableEq

/-- Whether one rule applies to a target with string path `path_str` and
operation `op` (the body of the rule loop, sandbox.rs lines 373-395): the
operations must be equal, the path must start with one of the rule's
`prefixes`, and must start with none of its `exclude_prefixes`. -/
def rule_matches (path_str : String) (op : Operation) (r : Rule) : Bool :=
  op == r.operation &&
  r.prefixes.any (fun p => strStartsWith path_str p) &&
  (match r.exclude_prefixes with
   | some ex => !(ex.any (fun e => strStartsWith path_str e))
   | none => true)

/-- The target/rule loop of `handle_syscall` (sandbox.rs lines 366-409):
each target is checked in order; a target whose path is not valid UTF-8
is skipped; for a UTF-8 target the rules are scanned in list order and
the first rule that applies produces the `SandboxError`. -/
def check_targets (rules : List Rule) : List SyscallTarget → Except SandboxError Unit
  | [] => .ok ()
  | t :: rest =>
    match t.path.to_str with
    | none => check_targets rules rest
    | some s =>
      match rules.find? (rule_matches s t.operation) with
      | some r => .error ⟨t.sysno, r.message, t.path⟩
      | none => check_targets rules rest

/-! ## Reading strings out of the tracee (sandbox.rs, `read_path`, lines
33-68)

Tracee memory is modelled as a function from word-aligned addresses to
the 8 bytes that `ptrace::read` would return there (`none` when the read
fails, e.g. unmapped memory or a dead tracee).  `read_path` collects
bytes word by word up to the first NUL, giving up once the buffer holds
8192 bytes without having seen a terminator, and finally decodes the
bytes as strict UTF-8 (`String::from_utf8`). -/

/-- Strict UTF-8 decoding worker over a byte list, with fuel bounded by
the list length (each step consumes at least one byte).  Rejects
continuation bytes in lead position, overlong encodings, surrogates and
values above `0x10FFFF`, as `String::from_utf8` does. -/
def utf8DecodeGo (fuel : Nat) (bs : List UInt8) : Option (List Char) :=
  match fuel with
  | 0 => match bs with | [] => some [] | _ :: _ => none
  | fuel + 1 =>
    match bs with
    | [] => some []
    | b :: rest =>
      let n := b.toNat
      if n < 0x80 then
        (utf8DecodeGo fuel rest).map (fun cs => Char.ofNat n :: cs)
      else if n < 0xC2 then none
      else if n < 0xE0 then
        match rest with
        | b1 :: rest1 =>
          let n1 := b1.toNat
          if 0x80 ≤ n1 ∧ n1 < 0xC0 then
            (utf8DecodeGo fuel rest1).map
              (fun cs => Char.ofNat ((n - 0xC0) * 0x40 + (n1 - 0x80)) :: cs)
          else none
        | [] => none
      else if n < 0xF0 then
        match rest with
        | b1 :: b2 :: rest2 =>
          let n1 := b1.toNat
          let n2 := b2.toNat
          let lo := if n = 0xE0 then 0xA0 else 0x80
          let hi := if n = 0xED then 0xA0 else 0xC0
          if (lo ≤ n1 ∧ n1 < hi) ∧ (0x80 ≤ n2 ∧ n2 < 0xC0) then
            (utf8DecodeGo fuel rest2).map
              (fun cs =>
                Char.ofNat ((n - 0xE0) * 0x1000 + (n1 - 0x80) * 0x40 + (n2 - 0x80)) :: cs)
          else none
        | _ => none
      else if n < 0xF5 then
        match rest with
        | b1 :: b2 :: b3 :: rest3 =>
          let n1 := b1.toNat
          let n2 := b2.toNat
          let n3 := b3.toNat
          let lo := if n = 0xF0 then 0x90 else 0x80
          let hi := if n = 0xF4 then 0x90 else 0xC0
          if (lo ≤ n1 ∧ n1 < hi) ∧ (0x80 ≤ n2 ∧ n2 < 0xC0) ∧ (0x80 ≤ n3 ∧ n3 < 0xC0) then
            (utf8DecodeGo fuel rest3).map
              (fun cs =>
                Char.ofNat ((n - 0xF0) * 0x40000 + (n1 - 0x80) * 0x1000 +
                  (n2 - 0x80) * 0x40 + (n3 - 0x80)) :: cs)
          else none
        | _ => none
      else none

/-- Strict UTF-8 decoding of a byte list, as `String::from_utf8`. -/
def utf8Decode (bs : List UInt8) : Option String :=
  (utf8DecodeGo bs.length bs).map (fun cs => String.mk cs)

/-- One word of tracee memory: the 8 bytes `ptrace::read` returns at a
word-aligned address, or `none` if the read fails. -/
def TraceeMem := Nat → Option (List UInt8)

/-- The accumulation loop of `read_path` (sandbox.rs lines 40-66).  `buf`
is accumulated in reverse; `len` mirrors `buf.len()`.  Each iteration
reads one word, scans it for a NUL from `offset` (nonzero only on the
first, unaligned, iteration), and either finishes or appends the whole
slice and moves to the next word.  Once `len` reaches 8192 without a
terminator the path is rejected.  The fuel only bounds the recursion and
is chosen larger than the 1024 iterations the length bound allows, so it
is never the reason for an error on well-formed word reads. -/
def read_path_go (mem : TraceeMem) (addr offset : Nat) (buf : List UInt8) (len : Nat) :
    Nat → Except String (List UInt8)
  | 0 => .error "path exceeds MAX_PATH"
  | fuel + 1 =>
    if len < 8192 then
      match mem addr with
      | none => .error "failed to read string"
      | some bytes =>
        let tail := bytes.drop offset
        match tail.findIdx? (fun b => b == 0) with
        | some i => .ok (buf.reverse ++ tail.take i)
        | none => read_path_go mem (addr + 8) 0 (tail.reverse ++ buf) (len + tail.length) fuel
    else .error "path exceeds MAX_PATH"

/-- Embedding of `read_path` (sandbox.rs lines 33-68): align the address
down to a word boundary, collect the NUL-terminated bytes (bounded by
8192), and decode them as UTF-8.  The `anyhow` context strings wrapped
around errors in the source are elided; errors carry their root message. -/
def read_path (mem : TraceeMem) (addr : Nat) : Except String String :=
  let offset := addr % 8
  let base := addr - offset
  match read_path_go mem base offset [] 0 8200 with
  | .error e => .error e
  | .ok bytes =>
    match utf8Decode bytes with
    | some s => .ok s
    | none => .error "decode string"

/-! ## Decoding syscall targets (sandbox.rs, `get_syscall_targets`,
lines 88-343)

The tracee-side state the decoder consults is bundled into `TraceeEnv`:
the registers at the stop, the word-readable memory, the target of
`/proc/<pid>/cwd` (modelled as always readable for a live tracee) and the
targets of `/proc/<pid>/fd/<n>` links.  Register values are `Nat`s below
`2^64`. -/

/-- The x86_64 user registers consulted by the decoder. -/
structure UserRegs where
  rax : Nat
  orig_rax : Nat
  rdi : Nat
  rsi : Nat
  rdx : Nat
  r10 : Nat

/-- Everything `get_syscall_targets` reads from the tracee and `/proc`. -/
structure TraceeEnv where
  regs : UserRegs
  mem : TraceeMem
  cwd : OsPath
  fdPath : Int → Option OsPath

/-- Interpretation of a u64 register as the i32 the source casts dirfds
to (`dirfd as i32`): truncate to 32 bits and sign-extend. -/
def toI32 (n : Nat) : Int :=
  let m := n % 4294967296
  if m < 2147483648 then (m : Int) else (m : Int) - 4294967296

/-- The 32-bit representation of `AT_FDCWD` (sandbox.rs line 27). -/
def AT_FDCWD : Nat := 0xffffff9c

/-- The sign-extended 64-bit representation of `AT_FDCWD`
(sandbox.rs line 28). -/
def AT_FDCWD64 : Nat := 0xffffffffffffff9c

/-- The u64 value of `-ENOSYS` that `rax` holds at a syscall-entry stop
(sandbox.rs line 90): `(-(ENOSYS as i32)) as u64 = 2^64 - 38`. -/
def ENOSYS_RET : Nat := 18446744073709551578

/-- Resolution of a dirfd register to a base directory path: the two
`AT_FDCWD` representations select the tracee's cwd, anything else is
resolved through `/proc/<pid>/fd/<dirfd as i32>` (failing when the link
cannot be read). -/
def resolve_dirfd (env : TraceeEnv) (r : Nat) : Except String OsPath :=
  if r = AT_FDCWD64 ∨ r = AT_FDCWD then .ok env.cwd
  else
    match env.fdPath (toI32 r) with
    | some p => .ok p
    | none => .error "get fd path"

/-- Embedding of `get_syscall_targets` (sandbox.rs lines 88-343).  At a
stop that is not a syscall-entry (`rax` not holding `-ENOSYS`) no targets
are produced.  Otherwise the x86_64 syscall number in `orig_rax` selects
an arm; reads and dirfd resolutions are performed in the source's order
(so their errors propagate the same way), access-mode checks use the low
two bits (`& O_ACCMODE` with `O_WRONLY = 1`, `O_RDWR = 2`) of the flags
register, and unrecognized syscalls yield the empty target list.  The
`linkat` arm reads its new path from `rsi` and the `symlinkat` arm
resolves its new dirfd from `rdx` and reads its new path from `r10`,
exactly as the source does. -/
def get_syscall_targets (env : TraceeEnv) : Except String (List SyscallTarget) :=
  if env.regs.rax ≠ ENOSYS_RET then .ok []
  else
    match env.regs.orig_rax with
    | 2 => -- open
      match read_path env.mem env.regs.rdi with
      | .error m => .error m
      | .ok p =>
        let path := env.cwd.push p
        let accmode := env.regs.rsi % 4
        if accmode ≠ 1 ∧ accmode ≠ 2 then .ok []
        else .ok [⟨.Modify, "open", path⟩]
    | 76 => -- truncate
      match read_path env.mem env.regs.rdi with
      | .error m => .error m
      | .ok p => .ok [⟨.Modify, "truncate", env.cwd.push p⟩]
    | 84 => -- rmdir
      match read_path env.mem env.regs.rdi with
      | .error m => .error m
      | .ok p => .ok [⟨.Delete, "rmdir", env.cwd.push p⟩]
    | 82 => -- rename
      match read_path env.mem env.regs.rdi with
      | .error m => .error m
      | .ok oldp =>
        match read_path env.mem env.regs.rsi with
        | .error m => .error m
        | .ok newp =>
          .ok [⟨.Delete, "rename", env.cwd.push oldp⟩, ⟨.Modify, "rename", env.cwd.push newp⟩]
    | 85 => -- creat
      match read_path env.mem env.regs.rdi with
      | .error m => .error m
      | .ok p => .ok [⟨.Modify, "creat", env.cwd.push p⟩]
    | 86 => -- link
      match read_path env.mem env.regs.rdi with
      | .error m => .error m
      | .ok _oldp =>
        match read_path env.mem env.regs.rsi with
        | .error m => .error m
        | .ok newp => .ok [⟨.Modify, "link", env.cwd.push newp⟩]
    | 87 => -- unlink
      match read_path env.mem env.regs.rdi with
      | .error m => .error m
      | .ok p => .ok [⟨.Delete, "unlink", env.cwd.push p⟩]
    | 88 => -- symlink
      match read_path env.mem env.regs.rdi with
      | .error m => .error m
      | .ok _oldp =>
        match read_path env.mem env.regs.rsi with
        | .error m => .error m
        | .ok newp => .ok [⟨.Modify, "symlink", env.cwd.push newp⟩]
    | 257 => -- openat
      match resolve_dirfd env env.regs.rdi with
      | .error m => .error m
      | .ok base =>
        match read_path env.mem env.regs.rsi with
        | .error m => .error m
        | .ok p =>
          let path := base.push p
          let accmode := env.regs.rdx % 4
          if accmode ≠ 1 ∧ accmode ≠ 2 then .ok []
          else .ok [⟨.Modify, "openat", path⟩]
    | 263 => -- unlinkat
      match resolve_dirfd env env.regs.rdi with
      | .error m => .error m
      | .ok base =>
        match read_path env.mem env.regs.rsi with
        | .error m => .error m
        | .ok p => .ok [⟨.Delete, "unlinkat", base.push p⟩]
    | 264 => -- renameat
      match resolve_dirfd env env.regs.rdi with
      | .error m => .error m
      | .ok oldBase =>
        match read_path env.mem env.regs.rsi with
        | .error m => .error m
        | .ok oldp =>
          match resolve_dirfd env env.regs.rdx with
          | .error m => .error m
          | .ok newBase =>
            match read_path env.mem env.regs.r10 with
            | .error m => .error m
            | .ok newp =>
              .ok [⟨.Delete, "renameat", oldBase.push oldp⟩,
                   ⟨.Modify, "renameat", newBase.push newp⟩]
    | 265 => -- linkat: the new path is (incorrectly) read from rsi
      match resolve_dirfd env env.regs.rdi with
      | .error m => .error m
      | .ok oldBase =>
        match read_path env.mem env.regs.rsi with
        | .error m => .error m
        | .ok oldp =>
          let _oldpath := oldBase.push oldp
          match resolve_dirfd env env.regs.rdx with
          | .error m => .error m
          | .ok newBase =>
            match read_path env.mem env.regs.rsi with
            | .error m => .error m
            | .ok newp => .ok [⟨.Modify, "linkat", newBase.push newp⟩]
    | 266 => -- symlinkat: dirfds/paths taken from rdi/rsi/rdx/r10 as in the source
      match resolve_dirfd env env.regs.rdi with
      | .error m => .error m
      | .ok oldBase =>
        match read_path env.mem env.regs.rsi with
        | .error m => .error m
        | .ok oldp =>
          let _oldpath := oldBase.push oldp
          match resolve_dirfd env env.regs.rdx with
          | .error m => .error m
          | .ok newBase =>
            match read_path env.mem env.regs.r10 with
            | .error m => .error m
            | .ok newp => .ok [⟨.Modify, "symlinkat", newBase.push newp⟩]
    | 316 => -- renameat2
      match resolve_dirfd env env.regs.rdi with
      | .error m => .error m
      | .ok oldBase =>
        match read_path env.mem env.regs.rsi with
        | .error m => .error m
        | .ok oldp =>
          match resolve_dirfd env env.regs.rdx with
          | .error m => .error m
          | .ok newBase =>
            match read_path env.mem env.regs.r10 with
            | .error m => .error m
            | .ok newp =>
              .ok [⟨.Delete, "renameat2", oldBase.push oldp⟩,
                   ⟨.Modify, "renameat2", newBase.push newp⟩]
    | 437 => -- openat2
      match resolve_dirfd env env.regs.rdi with
      | .error m => .error m
      | .ok base =>
        match read_path env.mem env.regs.rsi with
        | .error m => .error m
        | .ok p =>
          let path := base.push p
          let accmode := env.regs.rdx % 4
          if accmode ≠ 1 ∧ accmode ≠ 2 then .ok []
          else .ok [⟨.Modify, "openat2", path⟩]
    | _ => .ok []

/-- The two kinds of error `handle_syscall` can propagate: a rule
violation (`SandboxError`) or a decoding failure (any other `anyhow`
error, e.g. from `read_path` or `/proc` resolution).  `install_sandbox`
distinguishes them by `downcast_ref::<SandboxError>`. -/
inductive HandleErr where
  | sandbox (e : SandboxError)
  | decode (m : String)
  deriving DecidableEq

/-- Embedding of `handle_syscall` (sandbox.rs lines 365-410): decode the
targets of the pending syscall (propagating decoder failures), then run
the rule check over them. -/
def handle_syscall (env : TraceeEnv) (rules : List Rule) : Except HandleErr Unit :=
  match get_syscall_targets env with
  | .error m => .error (.decode m)
  | .ok ts =>
    match check_targets rules ts with
    | .ok _ => .ok ()
    | .error e => .error (.sandbox e)

/-! ## The tracer supervision loop (sandbox.rs, `run_parent` lines
492-623, and the exit mapping of `install_sandbox`, lines 687-711)

The loop's interaction with the kernel is embedded as an explicit list of
wait results.  Each stop that leads to `handle_syscall` carries the
`TraceeEnv` the decoder would read at that stop.  `ptrace` resume calls
have no further observable effect in this model; the `ptrace::kill`
issued before returning an error is recorded in the outcome. -/

/-- The signal of a `WaitStatus::Stopped` result, as the loop
distinguishes it. -/
inductive Sig where
  | SIGTRAP
  | SIGSTOP
  | other (n : Nat)

/-- One result of `wait()` as seen by the supervision loop. -/
inductive WaitEvent where
  | stopped (pid : Nat) (sig : Sig) (env : TraceeEnv)
  | ptraceSyscall (pid : Nat) (env : TraceeEnv)
  | ptraceEvent (pid : Nat)
  | exited (pid : Nat) (code : Int)
  | signaled (pid : Nat) (signum : Nat)
  | stillAlive
  | echild
  | waitErr (m : String)

/-- Outcome of the supervision loop: still waiting for more events, a
normal `Ok(code)` return, or an error return.  In the two error cases the
loop issued `ptrace::kill` on the stopped tracee (recorded as its pid)
before returning. -/
inductive LoopOutcome where
  | running
  | ok (code : Int)
  | violation (killed : Nat) (e : SandboxError)
  | fatal (killed : Nat) (m : String)
  deriving DecidableEq

/-- Embedding of the supervision loop of `run_parent` (sandbox.rs lines
492-623) over a list of wait results.  Syscall stops (`PtraceSyscall`,
and `Stopped` with `SIGTRAP`) run `handle_syscall`: on a violation or a
decode failure the tracee is killed and the error is returned.  `Exited`
and `Signaled` of the main tracee return its status (`128 + signum` for
signals); for other pids the loop goes on.  `ECHILD` — and any other
`wait` error — breaks out of the loop, returning `Ok(0)`. -/
def runLoop (mainPid : Nat) (rules : List Rule) : List WaitEvent → LoopOutcome
  | [] => .running
  | ev :: rest =>
    match ev with
    | .stopped pid sig env =>
      match sig with
      | .SIGTRAP =>
        match handle_syscall env rules with
        | .ok _ => runLoop mainPid rules rest
        | .error (.sandbox e) => .violation pid e
        | .error (.decode m) => .fatal pid m
      | .SIGSTOP => runLoop mainPid rules rest
      | .other _ => runLoop mainPid rules rest
    | .ptraceSyscall pid env =>
      match handle_syscall env rules with
      | .ok _ => runLoop mainPid rules rest
      | .error (.sandbox e) => .violation pid e
      | .error (.decode m) => .fatal pid m
    | .ptraceEvent _ => runLoop mainPid rules rest
    | .exited pid code => if pid = mainPid then .ok code else runLoop mainPid rules rest
    | .signaled pid s => if pid = mainPid then .ok (128 + (s : Int)) else runLoop mainPid rules rest
    | .stillAlive => runLoop mainPid rules rest
    | .echild => .ok 0
    | .waitErr _ => .ok 0

/-- The pid the loop killed via `ptrace::kill` before returning, if any. -/
def LoopOutcome.killed : LoopOutcome → Option Nat
  | .violation p _ => some p
  | .fatal p _ => some p
  | _ => none

/-- Embedding of the tracer-side exit mapping of `install_sandbox`
(sandbox.rs lines 687-711): a finished loop `_exit`s with the code
`run_parent` returned; an error that downcasts to `SandboxError` prints
`"<message>: <path>"` to stderr and `_exit`s with 254; any other error
prints `"run process: <error>"` and `_exit`s with 1.  `none` means the
loop is still supervising (no exit yet). -/
def tracer_exit : LoopOutcome → Option (Int × Option String)
  | .running => none
  | .ok code => some (code, none)
  | .violation _ e => some (254, some (e.message ++ ": " ++ e.path.display))
  | .fatal _ m => some (1, some ("run process: " ++ m))

/-! ## The reaper thread (lib.rs, `Pty::new`, lines 259-363)

The thread spawned for each child is sequential: when a data callback
was supplied it first runs the poll/read loop until the child's output
is drained and the pidfd reports termination (or the loop fails, which
it reports through the data callback), and only then calls
`child.wait()` and finally invokes the exit callback exactly once with
the result.  The thread is embedded as the ordered list of its
observable actions; the kernel-dependent inputs (the chunks the poll
loop reads, and the result of `wait`) are parameters. -/

deriving instance DecidableEq for Except

/-- Result of `ExitStatus` as the reaper consumes it: a normal exit with
a code, or death by signal (in which case `code()` is `None`). -/
inductive ChildStatus where
  | exited (code : Int)
  | signaled (signum : Nat)
  deriving DecidableEq

/-- Rust `ExitStatus::success`: an exit with code 0. -/
def ChildStatus.success : ChildStatus → Bool
  | .exited c => c == 0
  | .signaled _ => false

/-- Rust `ExitStatus::code`: the exit code, `none` on death by signal. -/
def ChildStatus.code : ChildStatus → Option Int
  | .exited c => some c
  | .signaled _ => none

/-- The argument of the single `on_exit` invocation (lib.rs lines
339-362): `Ok 0` when the status is a success, `Ok (code or -1)`
otherwise, and on a `wait` failure the error message built from the OS
errno (`raw_os_error`, `-1` when absent). -/
def on_exit_arg (w : Except (Option Int) ChildStatus) : Except String Int :=
  match w with
  | .ok st =>
    if st.success then .ok 0
    else .ok ((st.code).getD (-1))
  | .error errno =>
    .error ("OS error when waiting for child process to exit: " ++ toString (errno.getD (-1)))

/-- An observable action of the reaper thread. -/
inductive ReaperEvent where
  | dataCallback (chunk : List UInt8)
  | drainDone
  | reaped (w : Except (Option Int) ChildStatus)
  | exitCallback (arg : Except String Int)
  deriving DecidableEq

/-- Embedding of the reaper thread body (lib.rs lines 259-363) as its
ordered action trace.  `chunks` is present iff an `on_data` callback was
supplied; it lists the buffers the poll loop reads before the pidfd
reports the child gone (`drainDone` marks the loop returning).  After
that — and only after — the thread reaps the child and invokes the exit
callback once with `on_exit_arg`. -/
def reaperThread (chunks : Option (List (List UInt8))) (w : Except (Option Int) ChildStatus) :
    List ReaperEvent :=
  (match chunks with
   | some cs => cs.map ReaperEvent.dataCallback ++ [ReaperEvent.drainDone]
   | none => []) ++
  [ReaperEvent.reaped w, ReaperEvent.exitCallback (on_exit_arg w)]

/-- The arguments of the exit-callback invocations in a trace, in order. -/
def exitCalls (tr : List ReaperEvent) : List (Except String Int) :=
  tr.filterMap (fun ev =>
    match ev with
    | .exitCallback a => some a
    | _ => none)

/-! ## Concrete fixtures used by witnesses and counterexamples -/

/-- Memory holding the NUL-terminated string `/f` at address 4096. -/
def memOpenW : TraceeMem := fun a =>
  if a = 4096 then some [47, 102, 0, 0, 0, 0, 0, 0] else none

/-- A tracee stopped at the entry of `open("/f", O_WRONLY)`. -/
def envOpenW : TraceeEnv :=
  { regs := { rax := ENOSYS_RET, orig_rax := 2, rdi := 4096, rsi := 1, rdx := 0, r10 := 0 }
    mem := memOpenW
    cwd := .utf8 "/cwd"
    fdPath := fun _ => none }

/-- A single rule forbidding every modification under `/`. -/
def rulesW : List Rule := [⟨.Modify, ["/"], none, "nope"⟩]

/-- The target decoded from `envOpenW`. -/
def targetW : SyscallTarget := ⟨.Modify, "open", .utf8 "/f"⟩

/-- The violation `envOpenW` produces against `rulesW`. -/
def sbErrW : SandboxError := ⟨"open", "nope", .utf8 "/f"⟩

/-- Memory that is one long run of `A` bytes with no NUL terminator in
the first 8200 addressable words. -/
def memLongW : TraceeMem := fun a =>
  if a < 8200 then some [65, 65, 65, 65, 65, 65, 65, 65] else none

/-- A tracee stopped at the entry of `truncate(path)` where the path
argument is longer than 8192 bytes. -/
def envLongW : TraceeEnv :=
  { regs := { rax := ENOSYS_RET, orig_rax := 76, rdi := 0, rsi := 0, rdx := 0, r10 := 0 }
    mem := memLongW
    cwd := .utf8 "/cwd"
    fdPath := fun _ => none }

/-- Memory holding `old` at address 4096 and `new` at address 8192. -/
def memLinkW : TraceeMem := fun a =>
  if a = 4096 then some [111, 108, 100, 0, 0, 0, 0, 0]
  else if a = 8192 then some [110, 101, 119, 0, 0, 0, 0, 0]
  else none

/-- A tracee stopped at the entry of
`linkat(AT_FDCWD, "old", AT_FDCWD, "new", 0)`: the old path `old` sits at
address 4096 (`rsi`), the new path `new` at address 8192 (`r10`). -/
def envLinkatW : TraceeEnv :=
  { regs := { rax := ENOSYS_RET, orig_rax := 265, rdi := AT_FDCWD, rsi := 4096,
              rdx := AT_FDCWD, r10 := 8192 }
    mem := memLinkW
    cwd := .utf8 "/cwd"
    fdPath := fun _ => none }

/-- A tracee stopped at the entry of `symlinkat("t", AT_FDCWD, "l")`:
per the x86_64 ABI `rdi` holds the address of the target string `t`,
`rsi` the new dirfd (`AT_FDCWD`), `rdx` the address of the link path
`l`.  No fd named by the numeric value of the `t` pointer exists. -/
def envSymlinkatW : TraceeEnv :=
  { regs := { rax := ENOSYS_RET, orig_rax := 266, rdi := 12288, rsi := AT_FDCWD,
              rdx := 16384, r10 := 0 }
    mem := fun a =>
      if a = 12288 then some [116, 0, 0, 0, 0, 0, 0, 0]
      else if a = 16384 then some [108, 0, 0, 0, 0, 0, 0, 0]
      else none
    cwd := .utf8 "/cwd"
    fdPath := fun _ => none }

/-! ## Claim C10 -/

/-- C10.  A syscall target whose resolved path is not valid UTF-8 is
matched against no rule: the rule loop of `handle_syscall` skips it
entirely (the outcome with such a target at the head is the outcome
without it, for every rule list), and in particular a non-UTF-8 target
alone is always allowed. -/
theorem c10_thm (rules : List Rule) (op : Operation) (n : String) (bs : List UInt8)
    (rest : List SyscallTarget) :
    check_targets rules (⟨op, n, .nonUtf8 bs⟩ :: rest) = check_targets rules rest ∧
    check_targets rules [⟨op, n, .nonUtf8 bs⟩] = .ok () := by
  constructor
  · rfl
  · rfl

/-! ## Claim C3 -/

theorem find_first_decomp {α : Type} (p : α → Bool) (l : List α) (a : α)
    (h : l.find? p = some a) :
    ∃ pre post, l = pre ++ a :: post ∧ (∀ x ∈ pre, p x = false) ∧ p a = true := by
  induction l with
  | nil => simp [List.find?] at h
  | cons b tl ih =>
    cases hb : p b with
    | true =>
      rw [List.find?_cons_of_pos _ hb] at h
      obtain rfl : b = a := Option.some.inj h
      exact ⟨[], tl, rfl, by simp, hb⟩
    | false =>
      rw [List.find?_cons_of_neg _ (by simp [hb])] at h
      obtain ⟨pre, post, hl, hpre, hpa⟩ := ih h
      refine ⟨b :: pre, post, by simp [hl], ?_, hpa⟩
      intro x hx
      rcases List.mem_cons.mp hx with hx | hx
      · subst hx; exact hb
      · exact hpre x hx

theorem check_targets_ok_iff (rules : List Rule) (targets : List SyscallTarget) :
    check_targets rules targets = Except.ok () ↔
      ∀ t ∈ targets, ∀ s, t.path.to_str = some s →
        ∀ r ∈ rules, rule_matches s t.operation r = false := by
  induction targets with
  | nil => simp [check_targets]
  | cons t rest ih =>
    rw [List.forall_mem_cons]
    cases hts : t.path.to_str with
    | none =>
      have hstep : check_targets rules (t :: rest) = check_targets rules rest := by
        simp [check_targets, hts]
      rw [hstep, ih]
      constructor
      · intro h
        refine ⟨?_, h⟩
        intro s hs
        exact absurd hs (by simp)
      · exact fun h => h.2
    | some s =>
      cases hf : rules.find? (rule_matches s t.operation) with
      | none =>
        have hstep : check_targets rules (t :: rest) = check_targets rules rest := by
          simp [check_targets, hts, hf]
        rw [hstep, ih]
        have hall : ∀ r ∈ rules, rule_matches s t.operation r = false := by
          intro r hr
          simpa using List.find?_eq_none.mp hf r hr
        constructor
        · intro h
          refine ⟨?_, h⟩
          intro s' hs'
          obtain rfl : s = s' := Option.some.inj hs'
          exact hall
        · exact fun h => h.2
      | some r =>
        have hstep : check_targets rules (t :: rest) =
            Except.error ⟨t.sysno, r.message, t.path⟩ := by
          simp [check_targets, hts, hf]
        rw [hstep]
        constructor
        · intro h
          cases h
        · intro h
          have hm : rule_matches s t.operation r = true := List.find?_some hf
          have := h.1 s rfl r (List.mem_of_find?_eq_some hf)
          rw [this] at hm
          cases hm

theorem check_targets_error_decomp (rules : List Rule) (targets : List SyscallTarget)
    (e : SandboxError) (h : check_targets rules targets = Except.error e) :
    ∃ t ∈ targets, ∃ s, t.path.to_str = some s ∧
      ∃ pre r post, rules = pre ++ r :: post ∧
        rule_matches s t.operation r = true ∧
        (∀ r' ∈ pre, rule_matches s t.operation r' = false) ∧
        e = ⟨t.sysno, r.message, t.path⟩ := by
  induction targets with
  | nil => simp [check_targets] at h
  | cons t rest ih =>
    cases hts : t.path.to_str with
    | none =>
      have hstep : check_targets rules (t :: rest) = check_targets rules rest := by
        simp [check_targets, hts]
      rw [hstep] at h
      obtain ⟨t', ht', hrest⟩ := ih h
      exact ⟨t', List.mem_cons_of_mem _ ht', hrest⟩
    | some s =>
      cases hf : rules.find? (rule_matches s t.operation) with
      | none =>
        have hstep : check_targets rules (t :: rest) = check_targets rules rest := by
          simp [check_targets, hts, hf]
        rw [hstep] at h
        obtain ⟨t', ht', hrest⟩ := ih h
        exact ⟨t', List.mem_cons_of_mem _ ht', hrest⟩
      | some r =>
        have hstep : check_targets rules (t :: rest) =
            Except.error ⟨t.sysno, r.message, t.path⟩ := by
          simp [check_targets, hts, hf]
        rw [hstep] at h
        obtain rfl : (⟨t.sysno, r.message, t.path⟩ : SandboxError) = e := Except.error.inj h
        obtain ⟨pre, post, hl, hpre, hpa⟩ := find_first_decomp _ _ _ hf
        exact ⟨t, List.mem_cons_self t rest, s, hts, pre, r, post, hl, hpa, hpre, rfl⟩

/-- C3.  For every decoded target list and ordered rule list,
`handle_syscall` allows the syscall iff no target (with a UTF-8
representable path) matches any rule, where a rule applies iff its
operation equals the target's, the path starts with one of the rule's
prefixes and starts with none of its exclude prefixes; and any reported
violation comes from some target and the first rule, in list order, that
applies to it, carrying that rule's message. -/
theorem c3_thm (env : TraceeEnv) (targets : List SyscallTarget) (rules : List Rule)
    (hg : get_syscall_targets env = .ok targets) :
    (handle_syscall env rules = .ok () ↔
      ∀ t ∈ targets, ∀ s, t.path.to_str = some s →
        ∀ r ∈ rules, rule_matches s t.operation r = false) ∧
    (∀ e, handle_syscall env rules = .error (.sandbox e) →
      ∃ t ∈ targets, ∃ s, t.path.to_str = some s ∧
        ∃ pre r post, rules = pre ++ r :: post ∧
          rule_matches s t.operation r = true ∧
          (∀ r' ∈ pre, rule_matches s t.operation r' = false) ∧
          e = ⟨t.sysno, r.message, t.path⟩) := by
  constructor
  · cases hc : check_targets rules targets with
    | ok u =>
      cases u
      have hok : handle_syscall env rules = .ok () := by
        simp [handle_syscall, hg, hc]
      rw [hok]
      simpa using (check_targets_ok_iff rules targets).mp hc
    | error e0 =>
      have herr : handle_syscall env rules = .error (.sandbox e0) := by
        simp [handle_syscall, hg, hc]
      rw [herr]
      constructor
      · intro h
        cases h
      · intro h
        have := (check_targets_ok_iff rules targets).mpr h
        rw [hc] at this
        cases this
  · intro e he
    cases hc : check_targets rules targets with
    | ok u =>
      cases u
      have hok : handle_syscall env rules = .ok () := by
        simp [handle_syscall, hg, hc]
      rw [hok] at he
      cases he
    | error e0 =>
      have herr : handle_syscall env rules = .error (.sandbox e0) := by
        simp [handle_syscall, hg, hc]
      rw [herr] at he
      have h1 : HandleErr.sandbox e0 = HandleErr.sandbox e := Except.error.inj he
      have h2 : e0 = e := by injection h1
      subst h2
      exact check_targets_error_decomp rules targets e0 hc

/-- C3, witness for `c3_thm`: the concrete `open("/f", O_WRONLY)` stop
decodes to the single target `targetW`, and the characterization applies
to it with the concrete rule list `rulesW`. -/
theorem c3_witness :
    handle_syscall envOpenW rulesW = .ok () ↔
      ∀ t ∈ [targetW], ∀ s, t.path.to_str = some s →
        ∀ r ∈ rulesW, rule_matches s t.operation r = false :=
  (c3_thm envOpenW [targetW] rulesW (by decide)).1

/-! ## Claims C4 and C5 -/

theorem runLoop_append_of_running (mainPid : Nat) (rules : List Rule)
    (l₁ l₂ : List WaitEvent) (h : runLoop mainPid rules l₁ = .running) :
    runLoop mainPid rules (l₁ ++ l₂) = runLoop mainPid rules l₂ := by
  induction l₁ with
  | nil => simp
  | cons ev tl ih =>
    cases ev with
    | stopped pid sig env =>
      cases sig with
      | SIGTRAP =>
        cases hh : handle_syscall env rules with
        | ok u =>
          cases u
          rw [show runLoop mainPid rules (WaitEvent.stopped pid .SIGTRAP env :: tl) =
              runLoop mainPid rules tl from by simp [runLoop, hh]] at h
          rw [List.cons_append,
            show runLoop mainPid rules (WaitEvent.stopped pid .SIGTRAP env :: (tl ++ l₂)) =
              runLoop mainPid rules (tl ++ l₂) from by simp [runLoop, hh]]
          exact ih h
        | error e =>
          cases e with
          | sandbox e0 =>
            rw [show runLoop mainPid rules (WaitEvent.stopped pid .SIGTRAP env :: tl) =
                .violation pid e0 from by simp [runLoop, hh]] at h
            cases h
          | decode m =>
            rw [show runLoop mainPid rules (WaitEvent.stopped pid .SIGTRAP env :: tl) =
                .fatal pid m from by simp [runLoop, hh]] at h
            cases h
      | SIGSTOP =>
        rw [show runLoop mainPid rules (WaitEvent.stopped pid .SIGSTOP env :: tl) =
            runLoop mainPid rules tl from by simp [runLoop]] at h
        rw [List.cons_append,
          show runLoop mainPid rules (WaitEvent.stopped pid .SIGSTOP env :: (tl ++ l₂)) =
            runLoop mainPid rules (tl ++ l₂) from by simp [runLoop]]
        exact ih h
      | other n =>
        rw [show runLoop mainPid rules (WaitEvent.stopped pid (.other n) env :: tl) =
            runLoop mainPid rules tl from by simp [runLoop]] at h
        rw [List.cons_append,
          show runLoop mainPid rules (WaitEvent.stopped pid (.other n) env :: (tl ++ l₂)) =
            runLoop mainPid rules (tl ++ l₂) from by simp [runLoop]]
        exact ih h
    | ptraceSyscall pid env =>
      cases hh : handle_syscall env rules with
      | ok u =>
        cases u
        rw [show runLoop mainPid rules (WaitEvent.ptraceSyscall pid env :: tl) =
            runLoop mainPid rules tl from by simp [runLoop, hh]] at h
        rw [List.cons_append,
          show runLoop mainPid rules (WaitEvent.ptraceSyscall pid env :: (tl ++ l₂)) =
            runLoop mainPid rules (tl ++ l₂) from by simp [runLoop, hh]]
        exact ih h
      | error e =>
        cases e with
        | sandbox e0 =>
          rw [show runLoop mainPid rules (WaitEvent.ptraceSyscall pid env :: tl) =
              .violation pid e0 from by simp [runLoop, hh]] at h
          cases h
        | decode m =>
          rw [show runLoop mainPid rules (WaitEvent.ptraceSyscall pid env :: tl) =
              .fatal pid m from by simp [runLoop, hh]] at h
          cases h
    | ptraceEvent pid =>
      rw [show runLoop mainPid rules (WaitEvent.ptraceEvent pid :: tl) =
          runLoop mainPid rules tl from by simp [runLoop]] at h
      rw [List.cons_append,
        show runLoop mainPid rules (WaitEvent.ptraceEvent pid :: (tl ++ l₂)) =
          runLoop mainPid rules (tl ++ l₂) from by simp [runLoop]]
      exact ih h
    | exited pid code =>
      by_cases hp : pid = mainPid
      · rw [show runLoop mainPid rules (WaitEvent.exited pid code :: tl) =
            .ok code from by simp [runLoop, hp]] at h
        cases h
      · rw [show runLoop mainPid rules (WaitEvent.exited pid code :: tl) =
            runLoop mainPid rules tl from by simp [runLoop, hp]] at h
        rw [List.cons_append,
          show runLoop mainPid rules (WaitEvent.exited pid code :: (tl ++ l₂)) =
            runLoop mainPid rules (tl ++ l₂) from by simp [runLoop, hp]]
        exact ih h
    | signaled pid s =>
      by_cases hp : pid = mainPid
      · rw [show runLoop mainPid rules (WaitEvent.signaled pid s :: tl) =
            .ok (128 + (s : Int)) from by simp [runLoop, hp]] at h
        cases h
      · rw [show runLoop mainPid rules (WaitEvent.signaled pid s :: tl) =
            runLoop mainPid rules tl from by simp [runLoop, hp]] at h
        rw [List.cons_append,
          show runLoop mainPid rules (WaitEvent.signaled pid s :: (tl ++ l₂)) =
            runLoop mainPid rules (tl ++ l₂) from by simp [runLoop, hp]]
        exact ih h
    | stillAlive =>
      rw [show runLoop mainPid rules (WaitEvent.stillAlive :: tl) =
          runLoop mainPid rules tl from by simp [runLoop]] at h
      rw [List.cons_append,
        show runLoop mainPid rules (WaitEvent.stillAlive :: (tl ++ l₂)) =
          runLoop mainPid rules (tl ++ l₂) from by simp [runLoop]]
      exact ih h
    | echild =>
      rw [show runLoop mainPid rules (WaitEvent.echild :: tl) = .ok 0 from by
        simp [runLoop]] at h
      cases h
    | waitErr m =>
      rw [show runLoop mainPid rules (WaitEvent.waitErr m :: tl) = .ok 0 from by
        simp [runLoop]] at h
      cases h

/-- C4.  Whenever the supervision loop, still running after any sequence
of wait results, hits a syscall stop whose decoded target matches a rule
(`handle_syscall` returns the `SandboxError`), the loop kills the stopped
tracee via `ptrace::kill` and returns the error, and the tracer process
`_exit`s with status 254 after printing the rule's message, `": "` and
the target path to stderr. -/
theorem c4_thm (mainPid pid : Nat) (rules : List Rule) (events : List WaitEvent)
    (env : TraceeEnv) (e : SandboxError)
    (hrun : runLoop mainPid rules events = .running)
    (hv : handle_syscall env rules = .error (.sandbox e)) :
    runLoop mainPid rules (events ++ [.ptraceSyscall pid env]) = .violation pid e ∧
    (runLoop mainPid rules (events ++ [.ptraceSyscall pid env])).killed = some pid ∧
    tracer_exit (runLoop mainPid rules (events ++ [.ptraceSyscall pid env])) =
      some (254, some (e.message ++ ": " ++ e.path.display)) := by
  have h1 : runLoop mainPid rules (events ++ [.ptraceSyscall pid env]) = .violation pid e := by
    rw [runLoop_append_of_running mainPid rules events _ hrun]
    simp [runLoop, hv]
  refine ⟨h1, ?_, ?_⟩
  · rw [h1]
    rfl
  · rw [h1]
    rfl

/-- C4, witness for `c4_thm`: the concrete `open("/f", O_WRONLY)` stop
against the rule forbidding modifications under `/` makes the tracer kill
the tracee and exit 254 with `nope: /f` on stderr. -/
theorem c4_witness :
    runLoop 1 rulesW ([] ++ [.ptraceSyscall 2 envOpenW]) = .violation 2 sbErrW ∧
    (runLoop 1 rulesW ([] ++ [.ptraceSyscall 2 envOpenW])).killed = some 2 ∧
    tracer_exit (runLoop 1 rulesW ([] ++ [.ptraceSyscall 2 envOpenW])) =
      some (254, some (sbErrW.message ++ ": " ++ sbErrW.path.display)) :=
  c4_thm 1 2 rulesW [] envOpenW sbErrW rfl (by decide)

set_option maxRecDepth 200000 in
/-- C5, counterexample.  A `truncate` whose path argument is longer than
8192 bytes is not treated as allowed: `get_syscall_targets` fails,
and the supervision loop — far from letting the traced tree continue —
kills the tracee and ends with a fatal outcome, after which the tracer
exits 1. -/
theorem c5_cx :
    get_syscall_targets envLongW = .error "path exceeds MAX_PATH" ∧
    runLoop 1 [] [.ptraceSyscall 2 envLongW] = .fatal 2 "path exceeds MAX_PATH" ∧
    runLoop 1 [] [.ptraceSyscall 2 envLongW] ≠ .running ∧
    tracer_exit (runLoop 1 [] [.ptraceSyscall 2 envLongW]) =
      some (1, some ("run process: " ++ "path exceeds MAX_PATH")) := by
  have hg : get_syscall_targets envLongW = .error "path exceeds MAX_PATH" := by decide
  have h1 : runLoop 1 [] [.ptraceSyscall 2 envLongW] = .fatal 2 "path exceeds MAX_PATH" := by
    simp [runLoop, handle_syscall, hg]
  refine ⟨hg, h1, ?_, ?_⟩
  · rw [h1]
    simp
  · rw [h1]
    rfl

/-- C5, amended.  A decoder failure (in particular a path argument
exceeding 8192 bytes, which makes `read_path` fail with
`path exceeds MAX_PATH`) is a hard failure, not an allow: when the
still-running supervision loop hits such a syscall stop, it kills the
tracee and returns the error, and the tracer exits with the generic
failure status 1 (not 254), printing `run process: <error>` to stderr. -/
theorem c5_thm (mainPid pid : Nat) (rules : List Rule) (events : List WaitEvent)
    (env : TraceeEnv) (m : String)
    (hrun : runLoop mainPid rules events = .running)
    (hd : get_syscall_targets env = .error m) :
    handle_syscall env rules = .error (.decode m) ∧
    runLoop mainPid rules (events ++ [.ptraceSyscall pid env]) = .fatal pid m ∧
    (runLoop mainPid rules (events ++ [.ptraceSyscall pid env])).killed = some pid ∧
    tracer_exit (runLoop mainPid rules (events ++ [.ptraceSyscall pid env])) =
      some (1, some ("run process: " ++ m)) := by
  have hh : handle_syscall env rules = .error (.decode m) := by
    simp [handle_syscall, hd]
  have h1 : runLoop mainPid rules (events ++ [.ptraceSyscall pid env]) = .fatal pid m := by
    rw [runLoop_append_of_running mainPid rules events _ hrun]
    simp [runLoop, hh]
  refine ⟨hh, h1, ?_, ?_⟩
  · rw [h1]
    rfl
  · rw [h1]
    rfl

set_option maxRecDepth 200000 in
/-- C5, witness for `c5_thm` at the concrete over-long `truncate`. -/
theorem c5_witness :
    handle_syscall envLongW [] = .error (.decode "path exceeds MAX_PATH") ∧
    runLoop 1 [] ([] ++ [.ptraceSyscall 2 envLongW]) = .fatal 2 "path exceeds MAX_PATH" ∧
    (runLoop 1 [] ([] ++ [.ptraceSyscall 2 envLongW])).killed = some 2 ∧
    tracer_exit (runLoop 1 [] ([] ++ [.ptraceSyscall 2 envLongW])) =
      some (1, some ("run process: " ++ "path exceeds MAX_PATH")) :=
  c5_thm 1 2 [] [] envLongW "path exceeds MAX_PATH" rfl (by decide)

/-! ## Claim C6 -/

/-- C6.  What the code actually does on `linkat` and `symlinkat`.  For
`linkat(AT_FDCWD, "old", AT_FDCWD, "new", 0)` (the old path in `rsi`,
the new path in `r10`) the decoder produces a Modify target at
`/cwd/old` — it reads the new path from `rsi`, the old-path register —
instead of the new-path target `/cwd/new` required by the claim.  For
`symlinkat("t", AT_FDCWD, "l")` the decoder treats the target-string
pointer in `rdi` as a dirfd and the link-path pointer in `rdx` as a
dirfd too, so instead of producing a Modify target at the resolved link
path it fails to decode the syscall altogether. -/
theorem c6_code :
    get_syscall_targets envLinkatW = .ok [⟨.Modify, "linkat", .utf8 "/cwd/old"⟩] ∧
    get_syscall_targets envLinkatW ≠ .ok [⟨.Modify, "linkat", .utf8 "/cwd/new"⟩] ∧
    get_syscall_targets envSymlinkatW = .error "get fd path" := by
  have h1 : get_syscall_targets envLinkatW = .ok [⟨.Modify, "linkat", .utf8 "/cwd/old"⟩] := by
    decide
  refine ⟨h1, ?_, by decide⟩
  rw [h1]
  simp

/-! ## Claim C7 -/

/-- Little-endian interpretation of one 8-byte memory word as the u64 the
kernel would read there.  Used to state what the `open_how.flags` field
at an `openat2` pointer argument actually contains. -/
def wordLE (bs : List UInt8) : Nat :=
  bs.foldr (fun b acc => acc * 256 + b.toNat) 0

/-- Memory holding the NUL-terminated path `f` at address 4096 and, at
the 8-aligned address 8192, an `open_how` structure whose first u64
field (`flags`) is `O_WRONLY = 1`. -/
def memFW : TraceeMem := fun a =>
  if a = 4096 then some [102, 0, 0, 0, 0, 0, 0, 0]
  else if a = 8192 then some [1, 0, 0, 0, 0, 0, 0, 0]
  else none

/-- A tracee stopped at the entry of
`openat2(AT_FDCWD, "f", &how, sizeof(how))` with `how.flags = O_WRONLY`:
per the x86_64 ABI `rdx` holds the pointer to the `open_how` structure
(here the aligned address 8192), not the flags themselves. -/
def envOpenat2W : TraceeEnv :=
  { regs := { rax := ENOSYS_RET, orig_rax := 437, rdi := AT_FDCWD, rsi := 4096,
              rdx := 8192, r10 := 24 }
    mem := memFW
    cwd := .utf8 "/cwd"
    fdPath := fun _ => none }

/-- A tracee stopped at the entry of `openat(AT_FDCWD, "f", O_WRONLY)`:
for `openat` the flags argument really is in `rdx`. -/
def envOpenatW : TraceeEnv :=
  { regs := { rax := ENOSYS_RET, orig_rax := 257, rdi := AT_FDCWD, rsi := 4096,
              rdx := 1, r10 := 0 }
    mem := memFW
    cwd := .utf8 "/cwd"
    fdPath := fun _ => none }

/-- C7 (code behavior at the failing input).  For `openat2` the access
mode of the flags argument lives in `open_how.flags` in tracee memory,
but the decoder masks the third register — which in the `openat2` ABI is
the pointer to `open_how` — with `O_ACCMODE` (sandbox.rs line 322).  At
the concrete `openat2(AT_FDCWD, "f", &how, 24)` with
`how.flags = O_WRONLY` (the word at the pointer reads 1, i.e. accmode
`O_WRONLY`) the pointer is aligned, so its low bits are 0 and the
decoder produces the empty target list: the write is allowed, not the
single Modify target at the resolved path that the claim requires.  By
contrast `openat(AT_FDCWD, "f", O_WRONLY)`, whose flags argument is in
that register, produces the Modify target as claimed. -/
theorem c7_code :
    get_syscall_targets envOpenat2W = .ok [] ∧
    get_syscall_targets envOpenat2W ≠
      .ok [⟨.Modify, "openat2", envOpenat2W.cwd.push "f"⟩] ∧
    (envOpenat2W.mem envOpenat2W.regs.rdx).map wordLE = some 1 ∧
    envOpenat2W.regs.rdx % 4 = 0 ∧
    get_syscall_targets envOpenatW = .ok [⟨.Modify, "openat", .utf8 "/cwd/f"⟩] := by
  have h1 : get_syscall_targets envOpenat2W = .ok [] := by decide
  refine ⟨h1, ?_, by decide, by decide, by decide⟩
  rw [h1]
  simp

/-! ## Claims C8 and C9 -/

/-- Whether a reaper action is the exit-callback invocation. -/
def isExitCall : ReaperEvent → Bool
  | .exitCallback _ => true
  | _ => false

/-- Whether a reaper action is the completion of `child.wait()`. -/
def isReaped : ReaperEvent → Bool
  | .reaped _ => true
  | _ => false

/-- Whether a reaper action is the drain loop finishing. -/
def isDrainDone : ReaperEvent → Bool
  | .drainDone => true
  | _ => false

/-- C8.  The reaper invokes `on_exit` exactly once per child, and its
argument is: `Ok 0` when the child exited successfully; `Ok code` (the
child's exit code) on an unsuccessful exit with a code; `Ok (-1)` when no
code is available (death by signal); and, when the wait itself fails, the
error `"OS error when waiting for child process to exit: <errno>"` (with
`-1` for an absent errno). -/
theorem c8_thm (chunks : Option (List (List UInt8))) (w : Except (Option Int) ChildStatus)
    (c : Int) (s : Nat) (errno : Option Int) :
    exitCalls (reaperThread chunks w) = [on_exit_arg w] ∧
    on_exit_arg (.ok (.exited 0)) = .ok 0 ∧
    (c ≠ 0 → on_exit_arg (.ok (.exited c)) = .ok c) ∧
    on_exit_arg (.ok (.signaled s)) = .ok (-1) ∧
    on_exit_arg (.error errno) =
      .error ("OS error when waiting for child process to exit: " ++ toString (errno.getD (-1))) := by
  refine ⟨?_, rfl, ?_, rfl, rfl⟩
  · cases chunks with
    | none => rfl
    | some cs =>
      simp [reaperThread, exitCalls, List.filterMap_append, List.filterMap_map,
        Function.comp]
  · intro hc
    simp [on_exit_arg, ChildStatus.success, ChildStatus.code, hc]

/-- C8, witness for `c8_thm`: a child exiting with code 7 produces the
single invocation `on_exit(null, 7)`. -/
theorem c8_witness :
    exitCalls (reaperThread none (.ok (.exited 7))) = [on_exit_arg (.ok (.exited 7))] ∧
    on_exit_arg (.ok (.exited 7)) = .ok 7 :=
  ⟨(c8_thm none (.ok (.exited 7)) 7 0 none).1,
   (c8_thm none (.ok (.exited 7)) 7 0 none).2.2.1 (by decide)⟩

/-- C9, counterexample.  With a data callback installed and a child that
exits cleanly while producing no output, the reaper thread's trace is
`[drainDone, reaped, exitCallback]`: the drain loop signals completion at
index 0 and the reap happens at index 1, so the reap does not precede the
drain signal — the claimed order (reap, then drain done, then exit
callback) does not hold on this code. -/
theorem c9_cx :
    reaperThread (some []) (.ok (.exited 0)) =
      [.drainDone, .reaped (.ok (.exited 0)), .exitCallback (.ok 0)] ∧
    (reaperThread (some []) (.ok (.exited 0))).findIdx? isDrainDone = some 0 ∧
    (reaperThread (some []) (.ok (.exited 0))).findIdx? isReaped = some 1 := by
  refine ⟨rfl, by decide, by decide⟩

/-- C9, amended.  The exit callback is never invoked before draining has
quiesced and the child has been reaped: the reaper's trace is some front
(the drain phase, which contains neither a reap nor an exit callback and,
when a data callback is present, ends with the drain-loop completion)
followed by the reap and then, last, the single exit callback.  The order
is thus drain-done, then reap, then exit callback — the reap follows the
drain signal rather than preceding it. -/
theorem c9_thm (chunks : Option (List (List UInt8))) (w : Except (Option Int) ChildStatus) :
    ∃ front,
      reaperThread chunks w = front ++ [.reaped w, .exitCallback (on_exit_arg w)] ∧
      (∀ ev ∈ front, isReaped ev = false ∧ isExitCall ev = false) ∧
      (chunks.isSome → front.getLast? = some .drainDone) ∧
      (chunks = none → front = []) := by
  cases chunks with
  | none =>
    refine ⟨[], rfl, by simp, by simp, fun _ => rfl⟩
  | some cs =>
    refine ⟨cs.map ReaperEvent.dataCallback ++ [.drainDone], ?_, ?_, ?_, ?_⟩
    · simp [reaperThread]
    · intro ev hev
      rcases List.mem_append.mp hev with h | h
      · obtain ⟨ch, _, rfl⟩ := List.mem_map.mp h
        exact ⟨rfl, rfl⟩
      · rw [List.mem_singleton] at h
        subst h
        exact ⟨rfl, rfl⟩
    · intro _
      simp
    · intro h
      cases h

/-- C9, witness for `c9_thm` at a concrete run: one data chunk read, then
drain completion, then reap, then the exit callback. -/
theorem c9_witness :
    ∃ front,
      reaperThread (some [[65]]) (.ok (.exited 0)) =
        front ++ [.reaped (.ok (.exited 0)), .exitCallback (on_exit_arg (.ok (.exited 0)))] ∧
      (∀ ev ∈ front, isReaped ev = false ∧ isExitCall ev = false) ∧
      ((some [[65]] : Option (List (List UInt8))).isSome → front.getLast? = some .drainDone) ∧
      ((some [[65]] : Option (List (List UInt8))) = none → front = []) :=
  c9_thm (some [[65]]) (.ok (.exited 0))

end Ruspty
